import Mathlib

/-!
Verification of the chess-analysis pipeline of this repository.

The repository consists of python scripts that share a single parsing routine
(`parse_pgn_file`, duplicated verbatim in `chess_analysis.py`,
`advanced_chess_analysis.py` and `generate_advanced_insights.py`), a second
extractor (`ChessAnalyzer.parse_pgn` / `prepare_player_data` in
`comprehensive_chess_analysis.py`) and pandas-based feature derivation
(`analyze_chess_data`, `advanced_time_analysis`, `generate_advanced_insights`).

This file gives a shallow embedding of those routines.  Python machine-level
details are modelled as follows: python `int` is Lean `Int` (both unbounded),
python exceptions are `Option`/`Except` failures, a pandas data frame column is
a `List`, and pandas timestamps are rational-number second counts.
-/

/-- ASCII decimal digit test. -/
def isAsciiDigit (c : Char) : Bool :=
  48 ≤ c.toNat && c.toNat ≤ 57

/-- Python whitespace characters stripped by `int(s)`. -/
def isPySpace (c : Char) : Bool :=
  c = ' ' || c = '\t' || c = '\n' || c = '\r'

/-- Strip leading and trailing whitespace from a character list. -/
def pyStrip (cs : List Char) : List Char :=
  (((cs.dropWhile isPySpace).reverse).dropWhile isPySpace).reverse

/-- Numeric value of a list of ASCII digits, most significant first. -/
def digitsToNat (cs : List Char) : Nat :=
  cs.foldl (fun a c => a * 10 + (c.toNat - 48)) 0

/-- A non-empty all-digit character list parsed as a natural number; `none`
otherwise. -/
def decDigits? (cs : List Char) : Option Nat :=
  if !cs.isEmpty && cs.all isAsciiDigit then some (digitsToNat cs) else none

/-- Model of python `int(s)` on the characters of a string: optional
surrounding whitespace, optional single leading sign, then a non-empty run
of ASCII digits; `none` models the `ValueError` raised on any other input.
(Python additionally accepts underscore digit separators and unicode digits,
which do not occur in this data and are not modelled.) -/
def pyIntChars? (cs : List Char) : Option Int :=
  match pyStrip cs with
  | [] => none
  | c :: rest =>
    if c = '-' then (decDigits? rest).map (fun n => -(n : Int))
    else if c = '+' then (decDigits? rest).map (fun n => (n : Int))
    else (decDigits? (c :: rest)).map (fun n => (n : Int))

/-- Model of python `int(s)` on a string. -/
def pyInt? (s : String) : Option Int :=
  pyIntChars? s.data

/-- Model of python `str.isdigit` for the ASCII-digit strings that occur in
game headers: true iff the string is non-empty and every character is an
ASCII digit.  (Python also accepts some unicode digit characters, which do
not occur in this data and are not modelled.) -/
def pyIsDigit (s : String) : Bool :=
  !s.data.isEmpty && s.data.all isAsciiDigit

/-- Model of python `s.split(sep)` for a single-character separator: the
maximal runs of characters between occurrences of the separator, so that the
result always has one more group than there are separator occurrences (in
particular the empty string yields one empty group). -/
def splitOnChar (sep : Char) : List Char → List (List Char)
  | [] => [[]]
  | c :: rest =>
    if c = sep then [] :: splitOnChar sep rest
    else
      match splitOnChar sep rest with
      | [] => [[c]]
      | g :: gs => (c :: g) :: gs

/-- Model of the local helper `safe_int(headers.get(KEY, 0))` used by
`parse_pgn_file` (chess_analysis.py lines 39-43): a missing header gives the
integer default 0, a present header is parsed with python `int`, and the
`try/except` inside `safe_int` turns any parse failure into the default 0. -/
def safeInt (v : Option String) : Int :=
  match v with
  | none => 0
  | some s => (pyInt? s).getD 0

/-- A raw game entry: the header key/value mapping exposed by
`chess.pgn.read_game` together with the main-line move list (only the length
of the move list is observable in the extracted records). -/
structure RawEntry where
  headers : List (String × String)
  moves : List Unit
deriving Repr, DecidableEq

/-- Model of python `headers[k]` / `k in headers`: lookup in the header
mapping. -/
def hget (hs : List (String × String)) (k : String) : Option String :=
  List.lookup k hs

/-- Model of python `headers.get(k, d)`. -/
def hgetD (hs : List (String × String)) (k d : String) : String :=
  (hget hs k).getD d

/-- The perspective-normalized game result. -/
inductive Outcome
  | win
  | loss
  | draw
deriving Repr, DecidableEq

/-- Which color the tracked account played. -/
inductive Color
  | white
  | black
deriving Repr, DecidableEq

/-- The speed class derived from the time control. -/
inductive GameType
  | bullet
  | blitz
  | rapid
  | classical
deriving Repr, DecidableEq

/-- The `['IsmatS', 'Cassiny']` allow-list hardcoded in `parse_pgn_file`
(chess_analysis.py lines 31-33). -/
def trackedAccounts : List String := ["IsmatS", "Cassiny"]

/-- chess_analysis.py lines 29-34: the account is the White name when both
header keys are present and the White name is tracked, else the Black name
when it is tracked, else `none` (the entry is skipped). -/
def extractAccount (hs : List (String × String)) : Option String :=
  match hget hs "White", hget hs "Black" with
  | some w, some b =>
    if trackedAccounts.contains w then some w
    else if trackedAccounts.contains b then some b
    else none
  | _, _ => none

/-- chess_analysis.py lines 60-66: parse the TimeControl header.  When the
string contains a `+` it is split on `+` and each part is passed to python
`int`; a part that fails to parse, or a split with more or fewer than two
parts, raises `ValueError` (modelled as `none`, which the caller turns into
skipping the whole record).  When there is no `+` the whole string is the
base (0 unless it `isdigit`) and the increment is 0, with no failure
possible. -/
def parseTimeControl (tc : String) : Option (Int × Int) :=
  if tc.data.contains '+' then
    match (splitOnChar '+' tc.data).map pyIntChars? with
    | [some b, some i] => some (b, i)
    | _ => none
  else
    some (if pyIsDigit tc then (digitsToNat tc.data : Int) else 0, 0)

/-- chess_analysis.py lines 68-77: classify the time control by
`total_time = base_time + increment * 40`. -/
def gameType (base_time increment : Int) : GameType :=
  let total_time := base_time + increment * 40
  if total_time < 180 then GameType.bullet
  else if total_time < 600 then GameType.blitz
  else if total_time < 1800 then GameType.rapid
  else GameType.classical

/-- The flat record appended to `games` by `parse_pgn_file`
(chess_analysis.py lines 86-107), with the result/color strings replaced by
the corresponding enumerations. -/
structure GameRecord where
  account : String
  date : String
  utc_date : String
  utc_time : String
  result : Outcome
  color : Color
  player_elo : Int
  opponent_elo : Int
  elo_diff : Int
  rating_change : Int
  opening : String
  eco_code : String
  termination : String
  time_control : String
  game_type : GameType
  base_time : Int
  increment : Int
  total_moves : Nat
  site : String
  event : String
deriving Repr, DecidableEq

/-- The five perspective-dependent values computed by chess_analysis.py
lines 45-56. -/
structure Perspective where
  result : Outcome
  color : Color
  player_elo : Int
  opponent_elo : Int
  rating_diff : Int
deriving Repr, DecidableEq

/-- chess_analysis.py lines 45-56: white-perspective values when
`account == headers.get('White')`, black-perspective values otherwise. -/
def perspective (hs : List (String × String)) (account : String) : Perspective :=
  let result := hgetD hs "Result" ""
  if hget hs "White" = some account then
    { result := if result = "1-0" then Outcome.win
                else if result = "0-1" then Outcome.loss else Outcome.draw
      color := Color.white
      player_elo := safeInt (hget hs "WhiteElo")
      opponent_elo := safeInt (hget hs "BlackElo")
      rating_diff := safeInt (hget hs "WhiteRatingDiff") }
  else
    { result := if result = "0-1" then Outcome.win
                else if result = "1-0" then Outcome.loss else Outcome.draw
      color := Color.black
      player_elo := safeInt (hget hs "BlackElo")
      opponent_elo := safeInt (hget hs "WhiteElo")
      rating_diff := safeInt (hget hs "BlackRatingDiff") }

/-- The `game_data` dictionary built at chess_analysis.py lines 86-107 for a
matched account and successfully parsed time control. -/
def mkRecord (e : RawEntry) (account : String) (base_time increment : Int) :
    GameRecord :=
  let p := perspective e.headers account
  { account := account
    date := hgetD e.headers "Date" ""
    utc_date := hgetD e.headers "UTCDate" ""
    utc_time := hgetD e.headers "UTCTime" ""
    result := p.result
    color := p.color
    player_elo := p.player_elo
    opponent_elo := p.opponent_elo
    elo_diff := p.opponent_elo - p.player_elo
    rating_change := p.rating_diff
    opening := hgetD e.headers "Opening" ""
    eco_code := hgetD e.headers "ECO" ""
    termination := hgetD e.headers "Termination" ""
    time_control := hgetD e.headers "TimeControl" ""
    game_type := gameType base_time increment
    base_time := base_time
    increment := increment
    total_moves := e.moves.length
    site := hgetD e.headers "Site" ""
    event := hgetD e.headers "Event" "" }

/-- The processing of one raw entry inside the loop of `parse_pgn_file`
(chess_analysis.py lines 26-113, duplicated in advanced_chess_analysis.py
and generate_advanced_insights.py): `none` when the entry is skipped, either
because no tracked account matched (`continue` at line 58) or because the
time-control parse raised and the surrounding `except` clause skipped the
entry (lines 111-113). -/
def processEntry (e : RawEntry) : Option GameRecord :=
  match extractAccount e.headers with
  | none => none
  | some account =>
    match parseTimeControl (hgetD e.headers "TimeControl" "") with
    | none => none
    | some (base_time, increment) => some (mkRecord e account base_time increment)

/-- The whole of `parse_pgn_file` on a stream of raw entries. -/
def parsePgnFile (es : List RawEntry) : List GameRecord :=
  es.filterMap processEntry

example : pyInt? "300" = some 300 := by decide
example : pyInt? "-5" = some (-5) := by decide
example : pyInt? "x" = none := by decide
example : pyIsDigit "600" = true := by decide
example : pyIsDigit "" = false := by decide
example : parseTimeControl "300+0" = some (300, 0) := by decide
example : parseTimeControl "x+0" = none := by decide
example : parseTimeControl "-" = some (0, 0) := by decide
example : parseTimeControl "600" = some (600, 0) := by decide
example : gameType 600 0 = GameType.rapid := by decide
example :
    processEntry ⟨[("White", "IsmatS"), ("Black", "Opp"), ("Result", "1-0"),
      ("TimeControl", "300+0")], []⟩ =
    some (mkRecord ⟨[("White", "IsmatS"), ("Black", "Opp"), ("Result", "1-0"),
      ("TimeControl", "300+0")], []⟩ "IsmatS" 300 0) := by decide

/-- The fields of the row dictionary built by `ChessAnalyzer.parse_pgn`
(comprehensive_chess_analysis.py lines 83-97) that are consumed by
`prepare_player_data` and the claims.  The remaining columns (`date`,
`time`, `time_control`, `termination`, `opening`, `eco`, `moves`,
`game_number`) are verbatim copies of header fields that every perspective
row simply carries along unchanged; none of the verified claims observes
them, so they are not repeated here. -/
structure CompGame where
  white_player : String
  black_player : String
  result : String
  white_elo : Int
  black_elo : Int
deriving Repr, DecidableEq

/-- comprehensive_chess_analysis.py lines 51-52: an Elo header is parsed as
`int(headers.get(K, 0)) if headers.get(K, '0').isdigit() else 0` — a missing
header defaults to 0, a present all-digit header is parsed, anything else
degrades to 0. -/
def compElo (v : Option String) : Int :=
  if pyIsDigit (v.getD "0") then (digitsToNat (v.getD "0").data : Int) else 0

/-- comprehensive_chess_analysis.py lines 43-52: extraction of one raw entry
by `ChessAnalyzer.parse_pgn` (restricted to the columns of `CompGame`). -/
def compParseEntry (e : RawEntry) : CompGame :=
  { white_player := hgetD e.headers "White" "Unknown"
    black_player := hgetD e.headers "Black" "Unknown"
    result := hgetD e.headers "Result" "*"
    white_elo := compElo (hget e.headers "WhiteElo")
    black_elo := compElo (hget e.headers "BlackElo") }

/-- One perspective row appended to `player_games` by
`ChessAnalyzer.prepare_player_data` (comprehensive_chess_analysis.py lines
120-155): the copied game row and the added player-perspective columns. -/
structure PlayerRow where
  game : CompGame
  player : String
  player_color : Color
  player_elo : Int
  opponent : String
  opponent_elo : Int
  player_result : Outcome
deriving Repr, DecidableEq

/-- The `main_players = ['IsmatS', 'Cassiny']` list of
`prepare_player_data` (comprehensive_chess_analysis.py line 115). -/
def mainPlayers : List String := ["IsmatS", "Cassiny"]

/-- comprehensive_chess_analysis.py lines 122-137: the white-perspective row
of a game. -/
def whiteRow (g : CompGame) : PlayerRow :=
  { game := g
    player := g.white_player
    player_color := Color.white
    player_elo := g.white_elo
    opponent := g.black_player
    opponent_elo := g.black_elo
    player_result := if g.result = "1-0" then Outcome.win
                     else if g.result = "0-1" then Outcome.loss
                     else Outcome.draw }

/-- comprehensive_chess_analysis.py lines 139-155: the black-perspective row
of a game. -/
def blackRow (g : CompGame) : PlayerRow :=
  { game := g
    player := g.black_player
    player_color := Color.black
    player_elo := g.black_elo
    opponent := g.white_player
    opponent_elo := g.white_elo
    player_result := if g.result = "0-1" then Outcome.win
                     else if g.result = "1-0" then Outcome.loss
                     else Outcome.draw }

/-- The rows `prepare_player_data` appends for a single game: the two `if`
blocks at comprehensive_chess_analysis.py lines 122 and 140 run
independently, so a game whose White side is a main player contributes a
white-perspective row and a game whose Black side is a main player
contributes a black-perspective row, in that order. -/
def perspectiveRows (g : CompGame) : List PlayerRow :=
  (if mainPlayers.contains g.white_player then [whiteRow g] else []) ++
  (if mainPlayers.contains g.black_player then [blackRow g] else [])

/-- The whole of `ChessAnalyzer.prepare_player_data`
(comprehensive_chess_analysis.py lines 113-157) over the parsed game list. -/
def preparePlayerData (gs : List CompGame) : List PlayerRow :=
  gs.flatMap perspectiveRows

/-- The derived column `self.player_df['rating_diff'] = player_elo -
opponent_elo` (comprehensive_chess_analysis.py line 161). -/
def rating_diff (r : PlayerRow) : Int :=
  r.player_elo - r.opponent_elo

/-- The strings that pandas `to_datetime` converts to `NaT` instead of
attempting to parse (the `nat_strings` sentinel set of
`pandas._libs.tslibs`, plus the empty string, which is also converted to
`NaT`). -/
def natSentinels : List String :=
  ["", "NaT", "nat", "NAT", "nan", "NaN", "NAN"]

/-- Model of a successful pandas datetime parse of the combined
`"YYYY.MM.DD HH:MM:SS"` strings this pipeline feeds to `pd.to_datetime`,
returning a second count on a linearized calendar (months of 31 days; the
exact calendar arithmetic is irrelevant to the claims, which only concern
parse success and record survival).  Strings not of this shape — in
particular the `"<date> <time>"` concatenations whose parts are not
dot/colon-separated digit groups — fail to parse. -/
def parseTimestamp (s : String) : Option Nat :=
  match splitOnChar ' ' s.data with
  | [d, t] =>
    match splitOnChar '.' d, splitOnChar ':' t with
    | [y, mo, da], [h, mi, se] =>
      match decDigits? y, decDigits? mo, decDigits? da,
            decDigits? h, decDigits? mi, decDigits? se with
      | some yv, some mov, some dav, some hv, some miv, some sev =>
        if 1 ≤ mov && mov ≤ 12 && 1 ≤ dav && dav ≤ 31 &&
           hv < 24 && miv < 60 && sev < 60 then
          some (((((yv * 12 + (mov - 1)) * 31 + (dav - 1)) * 24 + hv) * 60
            + miv) * 60 + sev)
        else none
      | _, _, _, _, _, _ => none
    | _, _ => none
  | _ => none

/-- Model of pandas `pd.to_datetime` (default `errors='raise'`) on one
string: a sentinel string becomes `NaT` (`none`), a parseable string becomes
a timestamp, and any other string raises — modelled as `Except.error`
carrying the offending string. -/
def pdToDatetime1 (s : String) : Except String (Option Nat) :=
  if natSentinels.contains s then Except.ok none
  else
    match parseTimestamp s with
    | some t => Except.ok (some t)
    | none => Except.error s

/-- Model of pandas `pd.to_datetime` on a column of strings: elementwise
conversion, where the first unparseable non-sentinel string makes the whole
call raise (default `errors='raise'`; the source never passes
`errors='coerce'`). -/
def pdToDatetime : List String → Except String (List (Option Nat))
  | [] => Except.ok []
  | s :: ss =>
    match pdToDatetime1 s with
    | Except.error m => Except.error m
    | Except.ok v =>
      match pdToDatetime ss with
      | Except.error m => Except.error m
      | Except.ok vs => Except.ok (v :: vs)

/-- The columns of the flat game table that the timestamp derivation of
`analyze_chess_data` (chess_analysis.py line 125) and
`advanced_time_analysis` (advanced_chess_analysis.py line 122) reads. -/
structure TimedRecord where
  account : String
  utc_date : String
  utc_time : String
deriving Repr, DecidableEq

/-- The combined string `df['utc_date'] + ' ' + df['utc_time']`. -/
def combinedTimestamp (r : TimedRecord) : String :=
  r.utc_date ++ " " ++ r.utc_time

/-- The Deriver's timestamp step, `df['datetime'] =
pd.to_datetime(df['utc_date'] + ' ' + df['utc_time'])`
(chess_analysis.py line 125, advanced_chess_analysis.py line 122,
generate_advanced_insights.py line 106): each input record paired with its
parsed timestamp on success, and the propagated exception otherwise. -/
def deriveDatetimes (df : List TimedRecord) :
    Except String (List (TimedRecord × Option Nat)) :=
  Except.map (fun ps => df.zip ps) (pdToDatetime (df.map combinedTimestamp))

/-- pandas `groupby(...).diff()` on one identity partition, after the first
element: each element minus its predecessor. -/
def diffsFrom (prev : ℚ) : List ℚ → List (Option ℚ)
  | [] => []
  | t :: ts => some (t - prev) :: diffsFrom t ts

/-- advanced_chess_analysis.py line 168:
`df_sorted.groupby('account')['datetime'].diff()` restricted to one identity
partition already sorted by timestamp (in seconds): `NaT` (`none`) for the
first record, and the delta to the previous record after that. -/
def diffs : List ℚ → List (Option ℚ)
  | [] => []
  | t :: ts => none :: diffsFrom t ts

/-- advanced_chess_analysis.py line 169: the gap converted to hours,
`.dt.total_seconds() / 3600`. -/
def gapsHours (ts : List ℚ) : List (Option ℚ) :=
  (diffs ts).map (Option.map (fun g => g / 3600))

/-- advanced_chess_analysis.py line 172 (and, with threshold 2,
generate_advanced_insights.py line 236):
`(time_since_last_game_hours > threshold) | isna`. -/
def newSession (threshold : ℚ) (gap : Option ℚ) : Bool :=
  (match gap with
   | some x => decide (threshold < x)
   | none => false) || gap.isNone

/-- pandas `cumsum` over a boolean column, with the running total `acc`
carried in: each `True` adds one, and every position shows the running
total so far. -/
def cumsumBool (acc : Nat) : List Bool → List Nat
  | [] => []
  | b :: bs =>
    (acc + if b then 1 else 0) :: cumsumBool (acc + if b then 1 else 0) bs

/-- advanced_chess_analysis.py line 173:
`df_sorted.groupby('account')['new_session'].cumsum()` restricted to one
identity partition sorted by timestamp — the session counter starts at 0
and each record adds 1 exactly when its `new_session` flag is set. -/
def sessionIds (threshold : ℚ) (ts : List ℚ) : List Nat :=
  cumsumBool 0 ((gapsHours ts).map (newSession threshold))

example :
    perspectiveRows ⟨"IsmatS", "Cassiny", "1-0", 1500, 1400⟩ =
      [whiteRow ⟨"IsmatS", "Cassiny", "1-0", 1500, 1400⟩,
       blackRow ⟨"IsmatS", "Cassiny", "1-0", 1500, 1400⟩] := by decide
example : (parseTimestamp "2024.01.02 03:04:05").isSome = true := by decide
example : parseTimestamp "bad time" = none := by decide
example : pdToDatetime1 "" = Except.ok none := rfl
example : deriveDatetimes [⟨"IsmatS", "bad", "time"⟩] = Except.error "bad time" := rfl
example : sessionIds 1 [0, 3600] = [1, 1] := by
  norm_num [sessionIds, gapsHours, diffs, diffsFrom, newSession, cumsumBool]
example : sessionIds 1 [0, 3601] = [1, 2] := by
  norm_num [sessionIds, gapsHours, diffs, diffsFrom, newSession, cumsumBool]
example : sessionIds 2 [0, 3601] = [1, 1] := by
  norm_num [sessionIds, gapsHours, diffs, diffsFrom, newSession, cumsumBool]

/-- A concrete tracked white-side entry used to instantiate C2. -/
def wEntryTT : RawEntry :=
  RawEntry.mk [("White", "IsmatS"), ("Black", "Opp"), ("Result", "1-0"),
    ("TimeControl", "300+0")] []

/-- The record `parse_pgn_file` emits for `wEntryTT`. -/
def wRecTT : GameRecord := mkRecord wEntryTT "IsmatS" 300 0

/-- A concrete tracked entry with both Elo headers numeric, used to
instantiate C10. -/
def wEntryED : RawEntry :=
  RawEntry.mk [("White", "IsmatS"), ("Black", "Opp"), ("Result", "0-1"),
    ("WhiteElo", "1500"), ("BlackElo", "1432"), ("TimeControl", "60+0")] []

/-- The record `parse_pgn_file` emits for `wEntryED`. -/
def wRecED : GameRecord := mkRecord wEntryED "IsmatS" 60 0

/-- A raw game between the two tracked identities. -/
def bothEntry : RawEntry :=
  RawEntry.mk [("White", "IsmatS"), ("Black", "Cassiny"), ("Result", "1-0"),
    ("TimeControl", "300+0")] []

/-- An entry between two untracked players. -/
def untrackedEntry : RawEntry :=
  RawEntry.mk [("White", "Alice"), ("Black", "Bob"), ("Result", "1-0")] []

/-- A tracked entry whose TimeControl contains `+` but is not numeric. -/
def tcBadEntry : RawEntry :=
  RawEntry.mk [("White", "IsmatS"), ("Black", "Opp"), ("Result", "1-0"),
    ("TimeControl", "x+0")] []

/-- A tracked entry with the correspondence TimeControl `-` (no `+`). -/
def dashEntry : RawEntry :=
  RawEntry.mk [("White", "Cassiny"), ("Black", "Opp"), ("TimeControl", "-")] []

/-- The value pandas stores for one string when the `to_datetime` call as a
whole succeeds: `NaT` for a sentinel, the parsed timestamp otherwise. -/
def pdSem (s : String) : Option Nat :=
  if natSentinels.contains s then none else parseTimestamp s

/-- The Deriver input used in the C3 counterexample: one record whose
combined timestamp string cannot be parsed. -/
def badTimedRecord : TimedRecord := TimedRecord.mk "IsmatS" "bad" "time"

/-- A Deriver input whose single combined timestamp parses. -/
def goodTimedRecord : TimedRecord := TimedRecord.mk "IsmatS" "2024.01.02" "03:04:05"

/-- A Deriver input whose UTC headers were both absent, giving the
combined string a single space — not a pandas sentinel and not parseable. -/
def emptyTimedRecord : TimedRecord := TimedRecord.mk "Cassiny" "" ""

/-- C5: `speed_class` is a pure deterministic function of
(base_seconds, increment_seconds) through `base_seconds +
increment_seconds * 40`, with half-open thresholds: strictly below 180
bullet, strictly below 600 blitz, strictly below 1800 rapid, otherwise
classical; in particular (0,0) gives bullet, (600,0) gives rapid and
(1800,0) gives classical. -/
theorem speed_class_thresholds :
    (∀ b i : Int,
      (gameType b i = GameType.bullet ↔ b + i * 40 < 180) ∧
      (gameType b i = GameType.blitz ↔ 180 ≤ b + i * 40 ∧ b + i * 40 < 600) ∧
      (gameType b i = GameType.rapid ↔ 600 ≤ b + i * 40 ∧ b + i * 40 < 1800) ∧
      (gameType b i = GameType.classical ↔ 1800 ≤ b + i * 40)) ∧
    gameType 0 0 = GameType.bullet ∧
    gameType 600 0 = GameType.rapid ∧
    gameType 1800 0 = GameType.classical := by
  refine ⟨fun b i => ?_, by decide, by decide, by decide⟩
  simp only [gameType]
  split_ifs with h1 h2 h3 <;> refine ⟨?_, ?_, ?_, ?_⟩ <;>
    simp_all <;> omega

/-- C9: a raw entry whose header mapping lacks the `White` key or the
`Black` key produces no record, even when the other side is present (the
guard at chess_analysis.py line 30 requires both keys before any allow-list
check). -/
theorem missing_side_header_skips (e : RawEntry)
    (h : hget e.headers "White" = none ∨ hget e.headers "Black" = none) :
    processEntry e = none := by
  rcases h with h | h
  · simp [processEntry, extractAccount, h]
  · cases hW : hget e.headers "White" <;>
      simp [processEntry, extractAccount, h, hW]

/-- Witness for C9: an entry whose headers carry only a Black name — and
that name is on the allow-list — is still skipped. -/
theorem missing_side_header_skips_witness :
    hget (RawEntry.mk [("Black", "IsmatS")] []).headers "White" = none ∧
    processEntry (RawEntry.mk [("Black", "IsmatS")] []) = none :=
  ⟨rfl, missing_side_header_skips (RawEntry.mk [("Black", "IsmatS")] []) (Or.inl rfl)⟩

/-- Inversion of `processEntry`: an emitted record comes from a matched
account and a successfully parsed time control, and is exactly the
`game_data` row built from them. -/
theorem processEntry_inv (e : RawEntry) (r : GameRecord)
    (h : processEntry e = some r) :
    ∃ a bt inc, extractAccount e.headers = some a ∧
      parseTimeControl (hgetD e.headers "TimeControl" "") = some (bt, inc) ∧
      r = mkRecord e a bt inc := by
  unfold processEntry at h
  cases hacc : extractAccount e.headers with
  | none => rw [hacc] at h; simp at h
  | some a =>
    rw [hacc] at h
    cases htc : parseTimeControl (hgetD e.headers "TimeControl" "") with
    | none => rw [htc] at h; simp at h
    | some p =>
      obtain ⟨bt, inc⟩ := p
      rw [htc] at h
      simp only [Option.some.injEq] at h
      exact ⟨a, bt, inc, rfl, rfl, h.symm⟩

/-- C2: the outcome of an emitted record follows the side-aware truth table
of chess_analysis.py lines 45-56: white perspective maps '1-0' to win,
'0-1' to loss and everything else (including '*' and '1/2-1/2') to draw;
black perspective maps '0-1' to win, '1-0' to loss and everything else to
draw. -/
theorem result_truth_table (e : RawEntry) (r : GameRecord)
    (h : processEntry e = some r) :
    (r.color = Color.white →
      ((r.result = Outcome.win ↔ hgetD e.headers "Result" "" = "1-0") ∧
       (r.result = Outcome.loss ↔ hgetD e.headers "Result" "" = "0-1") ∧
       (r.result = Outcome.draw ↔
         hgetD e.headers "Result" "" ≠ "1-0" ∧
         hgetD e.headers "Result" "" ≠ "0-1"))) ∧
    (r.color = Color.black →
      ((r.result = Outcome.win ↔ hgetD e.headers "Result" "" = "0-1") ∧
       (r.result = Outcome.loss ↔ hgetD e.headers "Result" "" = "1-0") ∧
       (r.result = Outcome.draw ↔
         hgetD e.headers "Result" "" ≠ "1-0" ∧
         hgetD e.headers "Result" "" ≠ "0-1"))) := by
  obtain ⟨a, bt, inc, hacc, htc, rfl⟩ := processEntry_inv e r h
  by_cases hw : hget e.headers "White" = some a
  · refine ⟨fun _ => ?_, fun hcol => ?_⟩
    · simp only [mkRecord, perspective]
      rw [if_pos hw]
      refine ⟨?_, ?_, ?_⟩ <;> split_ifs with h1 h2 <;> simp_all
    · simp only [mkRecord, perspective] at hcol
      rw [if_pos hw] at hcol
      simp at hcol
  · refine ⟨fun hcol => ?_, fun _ => ?_⟩
    · simp only [mkRecord, perspective] at hcol
      rw [if_neg hw] at hcol
      simp at hcol
    · simp only [mkRecord, perspective]
      rw [if_neg hw]
      refine ⟨?_, ?_, ?_⟩ <;> split_ifs with h1 h2 <;> simp_all

/-- Witness for C2: the truth table evaluated on a concrete white-side win. -/
theorem result_truth_table_witness :
    (wRecTT.color = Color.white →
      ((wRecTT.result = Outcome.win ↔ hgetD wEntryTT.headers "Result" "" = "1-0") ∧
       (wRecTT.result = Outcome.loss ↔ hgetD wEntryTT.headers "Result" "" = "0-1") ∧
       (wRecTT.result = Outcome.draw ↔
         hgetD wEntryTT.headers "Result" "" ≠ "1-0" ∧
         hgetD wEntryTT.headers "Result" "" ≠ "0-1"))) ∧
    (wRecTT.color = Color.black →
      ((wRecTT.result = Outcome.win ↔ hgetD wEntryTT.headers "Result" "" = "0-1") ∧
       (wRecTT.result = Outcome.loss ↔ hgetD wEntryTT.headers "Result" "" = "1-0") ∧
       (wRecTT.result = Outcome.draw ↔
         hgetD wEntryTT.headers "Result" "" ≠ "1-0" ∧
         hgetD wEntryTT.headers "Result" "" ≠ "0-1"))) :=
  result_truth_table wEntryTT wRecTT (by decide)

/-- C10: `parse_pgn_file` computes `elo_diff = opponent_elo - player_elo`
(chess_analysis.py line 95) while `prepare_player_data` computes
`rating_diff = player_elo - opponent_elo`
(comprehensive_chess_analysis.py line 161); whenever the two scripts agree
on the parsed Elo integers of the same game row, the two quantities are
exact negatives of each other. -/
theorem elo_diff_sign_conventions (e : RawEntry) (r : GameRecord)
    (h : processEntry e = some r) :
    r.elo_diff = r.opponent_elo - r.player_elo ∧
    ∀ prow, prow ∈ perspectiveRows (compParseEntry e) →
      rating_diff prow = prow.player_elo - prow.opponent_elo ∧
      (prow.player_elo = r.player_elo → prow.opponent_elo = r.opponent_elo →
        r.elo_diff = -(rating_diff prow)) := by
  obtain ⟨a, bt, inc, hacc, htc, rfl⟩ := processEntry_inv e r h
  refine ⟨by simp [mkRecord], fun prow _ => ⟨rfl, fun h1 h2 => ?_⟩⟩
  simp only [mkRecord] at h1 h2 ⊢
  rw [rating_diff, h1, h2]
  ring

/-- Witness for C10: on a concrete game both scripts parse the Elo headers
to the same integers and the two difference columns are exact negatives. -/
theorem elo_diff_sign_conventions_witness :
    wRecED.elo_diff = wRecED.opponent_elo - wRecED.player_elo ∧
    rating_diff (whiteRow (compParseEntry wEntryED)) =
      (whiteRow (compParseEntry wEntryED)).player_elo -
        (whiteRow (compParseEntry wEntryED)).opponent_elo ∧
    wRecED.elo_diff = -(rating_diff (whiteRow (compParseEntry wEntryED))) := by
  have hmem : whiteRow (compParseEntry wEntryED) ∈
      perspectiveRows (compParseEntry wEntryED) := by decide
  have h := elo_diff_sign_conventions wEntryED wRecED (by decide)
  exact ⟨h.1, (h.2 (whiteRow (compParseEntry wEntryED)) hmem).1,
    (h.2 (whiteRow (compParseEntry wEntryED)) hmem).2 (by decide) (by decide)⟩

/-- Counterexample to C1: on a game between the two tracked identities,
`prepare_player_data` (one of the two extractors the claim covers) emits
two rows, not at most one — its white-side and black-side `if` blocks run
independently. -/
theorem single_record_counterexample :
    (preparePlayerData [compParseEntry bothEntry]).length = 2 ∧
    ¬(preparePlayerData [compParseEntry bothEntry]).length ≤ 1 := by
  exact ⟨by decide, by decide⟩

/-- C1 amended: both extractors emit zero records when neither side's name
is on the allow-list; `parse_pgn_file` emits at most one record per entry
(its result is an `Option`) and gives the White side precedence whenever
the White name is tracked; but `prepare_player_data` emits one row per
tracked side — two rows, White perspective first, when both sides are
tracked. -/
theorem extractor_emission_amended :
    (∀ e : RawEntry,
      hgetD e.headers "White" "" ∉ trackedAccounts →
      hgetD e.headers "Black" "" ∉ trackedAccounts →
      processEntry e = none) ∧
    (∀ e w, hget e.headers "White" = some w →
      w ∈ trackedAccounts →
      ∀ r, processEntry e = some r →
        r.account = w ∧ r.color = Color.white) ∧
    (∀ g : CompGame, g.white_player ∉ mainPlayers →
      g.black_player ∉ mainPlayers → perspectiveRows g = []) ∧
    (∀ g : CompGame, g.white_player ∈ mainPlayers →
      g.black_player ∈ mainPlayers →
      perspectiveRows g = [whiteRow g, blackRow g] ∧
      (whiteRow g).player_color = Color.white ∧
      (blackRow g).player_color = Color.black) := by
  refine ⟨fun e hw hb => ?_, fun e w hW ht r hr => ?_,
    fun g h1 h2 => by simp [perspectiveRows, h1, h2],
    fun g h1 h2 => ⟨by simp [perspectiveRows, h1, h2], rfl, rfl⟩⟩
  · cases hW : hget e.headers "White" with
    | none => simp [processEntry, extractAccount, hW]
    | some w =>
      cases hB : hget e.headers "Black" with
      | none => simp [processEntry, extractAccount, hW, hB]
      | some b =>
        simp only [hgetD, hW, hB, Option.getD_some] at hw hb
        simp [processEntry, extractAccount, hW, hB, hw, hb]
  · obtain ⟨a, bt, inc, hacc, htc, rfl⟩ := processEntry_inv e r hr
    unfold extractAccount at hacc
    rw [hW] at hacc
    cases hB : hget e.headers "Black" with
    | none => rw [hB] at hacc; simp at hacc
    | some b =>
      rw [hB] at hacc
      simp [ht] at hacc
      subst hacc
      exact ⟨by simp [mkRecord], by simp [mkRecord, perspective, hW]⟩

/-- Witness for the amended C1: zero records for an untracked game through
both extractors, White precedence on a concrete tracked white-side entry,
and the two perspective rows of a concrete both-tracked game. -/
theorem extractor_emission_amended_witness :
    processEntry untrackedEntry = none ∧
    (wRecTT.account = "IsmatS" ∧ wRecTT.color = Color.white) ∧
    perspectiveRows (compParseEntry untrackedEntry) = [] ∧
    (perspectiveRows (compParseEntry bothEntry) =
        [whiteRow (compParseEntry bothEntry),
         blackRow (compParseEntry bothEntry)] ∧
      (whiteRow (compParseEntry bothEntry)).player_color = Color.white ∧
      (blackRow (compParseEntry bothEntry)).player_color = Color.black) :=
  ⟨extractor_emission_amended.1 untrackedEntry (by decide) (by decide),
   extractor_emission_amended.2.1 wEntryTT "IsmatS" rfl (by decide) wRecTT
     (by decide),
   extractor_emission_amended.2.2.1 (compParseEntry untrackedEntry)
     (by decide) (by decide),
   extractor_emission_amended.2.2.2 (compParseEntry bothEntry)
     (by decide) (by decide)⟩

/-- Counterexample to C4: a tracked entry whose TimeControl is `x+0` makes
`map(int, time_control.split('+'))` raise; the surrounding `except` clause
skips the whole entry, so the record is lost instead of being emitted with
defaulted fields. -/
theorem timecontrol_drop_counterexample :
    extractAccount tcBadEntry.headers = some "IsmatS" ∧
    parseTimeControl (hgetD tcBadEntry.headers "TimeControl" "") = none ∧
    processEntry tcBadEntry = none ∧
    ¬∃ r, processEntry tcBadEntry = some r := by
  refine ⟨by decide, by decide, by decide, ?_⟩
  rintro ⟨r, hr⟩
  rw [show processEntry tcBadEntry = none by decide] at hr
  exact Option.noConfusion hr

/-- C4 amended: a TimeControl without `+` never fails — the whole string is
the base (0 unless it is all digits) and the increment is 0, and a matched
record is always emitted in that branch; but a TimeControl with `+` whose
parts do not parse as two integers raises, and the surrounding `except`
drops the record entirely rather than emitting it with defaulted fields. -/
theorem timecontrol_tolerance_amended :
    (∀ tc : String, '+' ∉ tc.data →
      ∃ bt : Int, parseTimeControl tc = some (bt, 0) ∧
        (pyIsDigit tc = false → bt = 0)) ∧
    (∀ e a, extractAccount e.headers = some a →
      '+' ∉ (hgetD e.headers "TimeControl" "").data →
      ∃ r, processEntry e = some r ∧ r.increment = 0 ∧
        (pyIsDigit (hgetD e.headers "TimeControl" "") = false →
          r.base_time = 0)) ∧
    (∀ e, parseTimeControl (hgetD e.headers "TimeControl" "") = none →
      processEntry e = none) := by
  refine ⟨fun tc h => ?_, fun e a hacc h => ?_, fun e h => ?_⟩
  · refine ⟨if pyIsDigit tc then (digitsToNat tc.data : Int) else 0, ?_, ?_⟩
    · simp [parseTimeControl, h]
    · intro hd; simp [hd]
  · have h1 : parseTimeControl (hgetD e.headers "TimeControl" "") =
        some (if pyIsDigit (hgetD e.headers "TimeControl" "") then
          (digitsToNat (hgetD e.headers "TimeControl" "").data : Int) else 0, 0) := by
      simp [parseTimeControl, h]
    refine ⟨mkRecord e a (if pyIsDigit (hgetD e.headers "TimeControl" "") then
        (digitsToNat (hgetD e.headers "TimeControl" "").data : Int) else 0) 0,
      by simp [processEntry, hacc, h1], by simp [mkRecord], fun hd => ?_⟩
    simp [mkRecord, hd]
  · cases hacc : extractAccount e.headers with
    | none => simp [processEntry, hacc]
    | some a => simp [processEntry, hacc, h]

/-- Witness for the amended C4: the no-`+` branch on `600` and on the
non-numeric `-`, and the dropped record on the unparseable `x+0`. -/
theorem timecontrol_tolerance_amended_witness :
    (∃ bt : Int, parseTimeControl "600" = some (bt, 0) ∧
      (pyIsDigit "600" = false → bt = 0)) ∧
    (∃ r, processEntry dashEntry = some r ∧ r.increment = 0 ∧
      (pyIsDigit "-" = false → r.base_time = 0)) ∧
    processEntry tcBadEntry = none :=
  ⟨timecontrol_tolerance_amended.1 "600" (by decide),
   timecontrol_tolerance_amended.2.1 dashEntry "Cassiny" (by decide) (by decide),
   timecontrol_tolerance_amended.2.2 tcBadEntry (by decide)⟩

/-- The function `diffsFrom` pairs each element with its predecessor in
`prev :: ts`. -/
theorem diffsFrom_getElem? (ts : List ℚ) : ∀ (prev : ℚ) (i : Nat) (a b : ℚ),
    (prev :: ts)[i]? = some a → ts[i]? = some b →
    (diffsFrom prev ts)[i]? = some (some (b - a)) := by
  induction ts with
  | nil => intro prev i a b _ hb; simp at hb
  | cons t ts2 ih =>
    intro prev i a b ha hb
    cases i with
    | zero =>
      simp only [List.getElem?_cons_zero, Option.some.injEq] at ha hb
      subst ha; subst hb
      simp [diffsFrom]
    | succ j =>
      simp only [List.getElem?_cons_succ] at ha hb
      simpa [diffsFrom] using ih t j a b ha hb

/-- The first element of a non-empty partition has a null diff. -/
theorem diffs_getElem?_zero (ts : List ℚ) : ∀ t : ℚ, ts[0]? = some t →
    (diffs ts)[0]? = some none := by
  cases ts with
  | nil => intro t ht; simp at ht
  | cons a l => intro t _; simp [diffs]

/-- After the first element, `diffs` is the delta of adjacent elements. -/
theorem diffs_getElem?_succ (ts : List ℚ) (i : Nat) (a b : ℚ)
    (ha : ts[i]? = some a) (hb : ts[i + 1]? = some b) :
    (diffs ts)[i + 1]? = some (some (b - a)) := by
  cases ts with
  | nil => simp at ha
  | cons t ts2 =>
    simp only [List.getElem?_cons_succ] at hb
    simpa [diffs] using diffsFrom_getElem? ts2 t i a b ha hb

/-- The head of a boolean cumulative sum. -/
theorem cumsumBool_getElem?_zero (acc : Nat) (b : Bool) (bs : List Bool) :
    (cumsumBool acc (b :: bs))[0]? = some (acc + if b then 1 else 0) := by
  simp [cumsumBool]

/-- Step relation of a boolean cumulative sum: each entry is its
predecessor plus the current flag. -/
theorem cumsumBool_getElem?_succ (bs : List Bool) : ∀ (acc : Nat) (i : Nat)
    (p : Nat) (x : Bool), (cumsumBool acc bs)[i]? = some p →
    bs[i + 1]? = some x →
    (cumsumBool acc bs)[i + 1]? = some (p + if x then 1 else 0) := by
  induction bs with
  | nil => intro acc i p x hp _; simp [cumsumBool] at hp
  | cons b bs2 ih =>
    intro acc i p x hp hx
    cases i with
    | zero =>
      simp only [cumsumBool, List.getElem?_cons_zero, Option.some.injEq] at hp
      simp only [List.getElem?_cons_succ] at hx
      subst hp
      cases bs2 with
      | nil => simp at hx
      | cons c cs =>
        simp only [List.getElem?_cons_zero, Option.some.injEq] at hx
        subst hx
        simp [cumsumBool]
    | succ j =>
      simp only [cumsumBool, List.getElem?_cons_succ] at hp hx
      simpa [cumsumBool] using
        ih (acc + if b then 1 else 0) j p x hp hx

/-- The `new_session` flag is set exactly for a null gap or a gap strictly
above the threshold. -/
theorem newSession_eq_true_iff (threshold : ℚ) (g : Option ℚ) :
    newSession threshold g = true ↔
      g = none ∨ ∃ x, g = some x ∧ threshold < x := by
  cases g with
  | none => simp [newSession]
  | some x => simp [newSession]

/-- C6: within a sorted identity partition, `session_id` is non-decreasing,
grows by at most 1 per step, and grows exactly when the gap is null or
strictly exceeds the threshold (advanced_chess_analysis.py lines 171-173;
the comparison is `>`, so a gap exactly equal to the threshold does not
start a new session). -/
theorem session_id_step (threshold : ℚ) (ts : List ℚ) (i : Nat)
    (g : Option ℚ) (p q : Nat)
    (hg : (gapsHours ts)[i + 1]? = some g)
    (hp : (sessionIds threshold ts)[i]? = some p)
    (hq : (sessionIds threshold ts)[i + 1]? = some q) :
    p ≤ q ∧ q ≤ p + 1 ∧
    (q = p + 1 ↔ (g = none ∨ ∃ x, g = some x ∧ threshold < x)) ∧
    (g = some threshold → q = p) := by
  have hb : ((gapsHours ts).map (newSession threshold))[i + 1]? =
      some (newSession threshold g) := by
    rw [List.getElem?_map, hg]; rfl
  have hstep := cumsumBool_getElem?_succ
    ((gapsHours ts).map (newSession threshold)) 0 i p
    (newSession threshold g) hp hb
  rw [sessionIds] at hq
  rw [hstep] at hq
  have hq2 : q = p + if newSession threshold g then 1 else 0 :=
    (Option.some.inj hq).symm
  subst hq2
  refine ⟨by split <;> omega, by split <;> omega, ?_, ?_⟩
  · rw [← newSession_eq_true_iff threshold g]
    cases hns : newSession threshold g <;> simp [hns]
  · intro hgt
    subst hgt
    simp [newSession]

/-- Witness for C6: threshold 1 hour, two games exactly 3600 seconds apart —
the gap in hours is exactly the threshold, the flag stays down, and both
records share session id 1. -/
theorem session_id_step_witness :
    1 ≤ 1 ∧ 1 ≤ 1 + 1 ∧
    (1 = 1 + 1 ↔ ((some (1 : ℚ) = none) ∨
      ∃ x, some (1 : ℚ) = some x ∧ (1 : ℚ) < x)) ∧
    (some (1 : ℚ) = some (1 : ℚ) → 1 = 1) := by
  have hg : (gapsHours [0, 3600])[0 + 1]? = some (some (1 : ℚ)) := by
    norm_num [gapsHours, diffs, diffsFrom]
  have hp : (sessionIds 1 [0, 3600])[0]? = some 1 := by
    norm_num [sessionIds, gapsHours, diffs, diffsFrom, newSession, cumsumBool]
  have hq : (sessionIds 1 [0, 3600])[0 + 1]? = some 1 := by
    norm_num [sessionIds, gapsHours, diffs, diffsFrom, newSession, cumsumBool]
  exact session_id_step 1 [0, 3600] 0 (some 1) 1 1 hg hp hq

/-- C7: the session counter of a partition starts at 0 and the first record
increments it (its gap is null), so the first record carries `0 + 1`; a
record whose `new_session` flag is down carries the same session id as its
predecessor (advanced_chess_analysis.py line 173). -/
theorem session_counter_start (threshold : ℚ) (ts : List ℚ) :
    (∀ t : ℚ, ts[0]? = some t →
      (sessionIds threshold ts)[0]? = some (0 + 1)) ∧
    (∀ i g p, (gapsHours ts)[i + 1]? = some g →
      newSession threshold g = false →
      (sessionIds threshold ts)[i]? = some p →
      (sessionIds threshold ts)[i + 1]? = some p) := by
  constructor
  · intro t ht
    cases ts with
    | nil => simp at ht
    | cons a l =>
      simp [sessionIds, gapsHours, diffs, newSession, cumsumBool]
  · intro i g p hg hns hp
    have hb : ((gapsHours ts).map (newSession threshold))[i + 1]? =
        some (newSession threshold g) := by
      rw [List.getElem?_map, hg]; rfl
    have hstep := cumsumBool_getElem?_succ
      ((gapsHours ts).map (newSession threshold)) 0 i p
      (newSession threshold g) hp hb
    rw [sessionIds, hstep, hns]
    rfl

/-- Witness for C7: on two games 3600 seconds apart with a 1-hour
threshold, the first record carries session id `0 + 1` and the second —
whose flag is down — repeats it. -/
theorem session_counter_start_witness :
    (sessionIds 1 [0, 3600])[0]? = some (0 + 1) ∧
    (sessionIds 1 [0, 3600])[0 + 1]? = some 1 := by
  have hg : (gapsHours [0, 3600])[0 + 1]? = some (some (1 : ℚ)) := by
    norm_num [gapsHours, diffs, diffsFrom]
  have hns : newSession 1 (some (1 : ℚ)) = false := by
    norm_num [newSession]
  have hp : (sessionIds 1 [0, 3600])[0]? = some 1 := by
    norm_num [sessionIds, gapsHours, diffs, diffsFrom, newSession, cumsumBool]
  exact ⟨(session_counter_start 1 [0, 3600]).1 0 rfl,
    (session_counter_start 1 [0, 3600]).2 0 (some 1) 1 hg hns hp⟩

/-- C8: within a sorted identity partition, the gap column is null for the
first record and equals `timestamp[i] - timestamp[i-1]` for every later
record (advanced_chess_analysis.py line 168). -/
theorem gap_is_adjacent_delta (ts : List ℚ) :
    (∀ t : ℚ, ts[0]? = some t → (diffs ts)[0]? = some none) ∧
    (∀ i a b, ts[i]? = some a → ts[i + 1]? = some b →
      (diffs ts)[i + 1]? = some (some (b - a))) :=
  ⟨diffs_getElem?_zero ts, fun i a b ha hb => diffs_getElem?_succ ts i a b ha hb⟩

/-- Witness for C8: the diff column of the partition `[5, 17]` is
`[none, some 12]`. -/
theorem gap_is_adjacent_delta_witness :
    (diffs [5, 17])[0]? = some none ∧
    (diffs [(5 : ℚ), 17])[0 + 1]? = some (some (17 - 5)) :=
  ⟨(gap_is_adjacent_delta [5, 17]).1 5 rfl,
   (gap_is_adjacent_delta [5, 17]).2 0 5 17 rfl rfl⟩

/-- A sentinel-or-parseable string converts without raising, to `pdSem`. -/
theorem pdToDatetime1_ok_of_good (s : String)
    (h : s ∈ natSentinels ∨ (parseTimestamp s).isSome = true) :
    pdToDatetime1 s = Except.ok (pdSem s) := by
  by_cases hc : s ∈ natSentinels
  · simp [pdToDatetime1, pdSem, hc]
  · rcases h with h | h
    · exact absurd h hc
    · obtain ⟨t, ht⟩ := Option.isSome_iff_exists.mp h
      simp [pdToDatetime1, pdSem, hc, ht]

/-- When every string of the column is sentinel-or-parseable, the whole
conversion succeeds elementwise. -/
theorem pdToDatetime_ok (ss : List String)
    (h : ∀ s ∈ ss, pdToDatetime1 s = Except.ok (pdSem s)) :
    pdToDatetime ss = Except.ok (ss.map pdSem) := by
  induction ss with
  | nil => rfl
  | cons a l ih =>
    have ha := h a (List.mem_cons_self a l)
    have hl := ih (fun s hs => h s (List.mem_cons_of_mem a hs))
    simp [pdToDatetime, ha, hl]

/-- One unparseable non-sentinel string anywhere in the column makes the
whole conversion raise. -/
theorem pdToDatetime_error (ss : List String)
    (h : ∃ s ∈ ss, s ∉ natSentinels ∧ parseTimestamp s = none) :
    ∃ m, pdToDatetime ss = Except.error m := by
  induction ss with
  | nil => obtain ⟨s, hs, _⟩ := h; simp at hs
  | cons a l ih =>
    cases h1 : pdToDatetime1 a with
    | error m => exact ⟨m, by simp [pdToDatetime, h1]⟩
    | ok v =>
      obtain ⟨s, hs, hbad⟩ := h
      rcases List.mem_cons.mp hs with rfl | hsl
      · rw [pdToDatetime1] at h1
        simp [hbad.1, hbad.2] at h1
      · obtain ⟨m, hm⟩ := ih ⟨s, hsl, hbad⟩
        exact ⟨m, by simp [pdToDatetime, h1, hm]⟩

/-- Counterexample to C3: on an input of one record whose combined
`utc_date + ' ' + utc_time` string does not parse, `pd.to_datetime`
(called with its default `errors='raise'`) raises, so the Deriver
produces no output at all — the record is not kept with null fields and
the output does not have the input's cardinality. -/
theorem deriver_drop_counterexample :
    deriveDatetimes [badTimedRecord] = Except.error "bad time" ∧
    ¬∃ out, deriveDatetimes [badTimedRecord] = Except.ok out ∧
      out.length = 1 := by
  refine ⟨rfl, ?_⟩
  rintro ⟨out, hout, _⟩
  rw [show deriveDatetimes [badTimedRecord] = Except.error "bad time"
    from rfl] at hout
  exact Except.noConfusion hout

/-- C3 amended: the Deriver keeps cardinality (and pairs each record with
its timestamp, `NaT` for pandas sentinel strings) only when every record's
combined timestamp string is a sentinel or parseable; a single record whose
combined string is neither makes `pd.to_datetime` raise with default
`errors='raise'`, so the exception propagates and the Deriver produces no
output at all instead of keeping the record with null fields. -/
theorem deriver_null_amended :
    (∀ df : List TimedRecord,
      (∀ r ∈ df, combinedTimestamp r ∈ natSentinels ∨
        (parseTimestamp (combinedTimestamp r)).isSome = true) →
      deriveDatetimes df =
        Except.ok (df.zip (df.map (fun r => pdSem (combinedTimestamp r)))) ∧
      ∃ out, deriveDatetimes df = Except.ok out ∧ out.length = df.length) ∧
    (∀ df : List TimedRecord,
      (∃ r ∈ df, combinedTimestamp r ∉ natSentinels ∧
        parseTimestamp (combinedTimestamp r) = none) →
      ∃ m, deriveDatetimes df = Except.error m) ∧
    (∀ s, s ∈ natSentinels → pdSem s = none) := by
  refine ⟨fun df h => ?_, fun df h => ?_, fun s hs => by simp [pdSem, hs]⟩
  · have hmap : pdToDatetime (df.map combinedTimestamp) =
        Except.ok ((df.map combinedTimestamp).map pdSem) := by
      refine pdToDatetime_ok (df.map combinedTimestamp) (fun s hs => ?_)
      obtain ⟨r, hr, rfl⟩ := List.mem_map.mp hs
      exact pdToDatetime1_ok_of_good (combinedTimestamp r) (h r hr)
    have hok : deriveDatetimes df =
        Except.ok (df.zip (df.map (fun r => pdSem (combinedTimestamp r)))) := by
      simp [deriveDatetimes, hmap, Except.map, List.map_map]
      rfl
    refine ⟨hok, df.zip (df.map (fun r => pdSem (combinedTimestamp r))), hok, ?_⟩
    simp
  · obtain ⟨r, hr, hbad⟩ := h
    obtain ⟨m, hm⟩ := pdToDatetime_error (df.map combinedTimestamp)
      ⟨combinedTimestamp r, List.mem_map_of_mem combinedTimestamp hr, hbad⟩
    exact ⟨m, by simp [deriveDatetimes, hm, Except.map]⟩

/-- Witness for the amended C3: a one-record parseable input is kept
one-to-one, a one-record input with empty date/time strings raises, and
the empty-string sentinel maps to `NaT`. -/
theorem deriver_null_amended_witness :
    (deriveDatetimes [goodTimedRecord] =
      Except.ok ([goodTimedRecord].zip ([goodTimedRecord].map
        (fun r => pdSem (combinedTimestamp r)))) ∧
     ∃ out, deriveDatetimes [goodTimedRecord] = Except.ok out ∧
       out.length = [goodTimedRecord].length) ∧
    (∃ m, deriveDatetimes [emptyTimedRecord] = Except.error m) ∧
    pdSem "" = none :=
  ⟨deriver_null_amended.1 [goodTimedRecord]
     (fun r hr => by
       rcases List.mem_singleton.mp hr with rfl
       exact Or.inr (by decide)),
   deriver_null_amended.2.1 [emptyTimedRecord]
     ⟨emptyTimedRecord, List.mem_singleton.mpr rfl, by decide, by decide⟩,
   deriver_null_amended.2.2 "" (by decide)⟩
